import Mathlib

/-!
# Verification of the Shinigami Eyes ML-service classification engine

Shallow embedding of the classification and multi-signal aggregation engine of
the `ml_service` package:

* `ContentAnalyzer.analyze_with_patterns`, `analyze_with_ollama`, `analyze_text`
  and `analyze_profile` (`ml_service/utils/content_analyzer.py`);
* `CommonCrawlAnalyzer._get_domain_from_url`, `_check_known_domain_stance`,
  `_analyze_domain_content`, `analyze_links` (`ml_service/utils/common_crawl.py`);
* the cross-signal override rule of `analyze_profile` / `analyze_url`
  (`ml_service/app.py`, lines 147-151 and 200-204).

Modelling conventions:

* Python float arithmetic is modelled exactly over `ℚ` (and over `ℝ` where the
  code takes a square root, i.e. `np.std`).  All constants appearing in the
  code are small decimal fractions, far from any binary-float boundary
  effect at the match counts that are physically reachable.
* Network collaborators (the Ollama HTTP backend, the Common Crawl index and
  WARC fetches) are modelled as explicit oracle inputs: an `OllamaOutcome`
  for one backend call, and for each domain a list of per-record extracted
  page texts (`Option String`: `none` when the WARC fetch or HTML extraction
  failed).  Everything downstream of those inputs is translated from the
  source.
* Python `str` operations (`lower`, `strip`, regex classes `\s`, `\w`) are
  modelled at ASCII granularity, which is exact on the ASCII inputs the
  claims are about.
* `ContentAnalyzer.preprocess_text` is modelled in its spaCy-absent form
  (`self.nlp = None`): the regex cleaning steps are translated exactly and
  the optional lemmatisation (an optimisation, and absent in the fallback
  path of the code itself) is not applied.  No claim depends on the lemmatised variant.
* Python `set` iteration order in `CommonCrawlAnalyzer.analyze_links` is
  unspecified; it is modelled as first-occurrence order of the deduplicated
  domains, a deterministic refinement.
* The per-process caches (`link_analysis_cache`, HTTP-layer caches) memoise a
  deterministic function of the oracle inputs, so they are dropped from the
  embedding: a cache hit returns exactly the value the embedding recomputes.
-/

/-! ## Character-level helpers (Python `str` semantics, ASCII fragment) -/

/-- Python `\s` / `str.isspace` on the ASCII range. -/
def isPySpace (c : Char) : Bool :=
  c = ' ' || c = '\t' || c = '\n' || c = '\x0d' || c = '\x0b' || c = '\x0c'

/-- Python `\w` (word character) on the ASCII range: letters, digits, `_`. -/
def isPyWord (c : Char) : Bool :=
  c.isAlphanum || c = '_'

/-- Python `str.lower` on one character (ASCII fragment). -/
def lowerChar (c : Char) : Char :=
  if 'A' ≤ c ∧ c ≤ 'Z' then Char.ofNat (c.toNat + 32) else c

/-- Python `str.lower` on a character list. -/
def lowerL (l : List Char) : List Char := l.map lowerChar

/-- Python `str.strip()`: remove leading and trailing whitespace. -/
def pyStrip (l : List Char) : List Char :=
  ((l.dropWhile isPySpace).reverse.dropWhile isPySpace).reverse

/-- Python `str.startswith` (kernel-reducible form over the char lists). -/
def pyStartsWith (s p : String) : Bool := p.data.isPrefixOf s.data

/-- Python slicing `s[:n]` (kernel-reducible form over the char lists). -/
def pyTake (s : String) (n : ℕ) : String := ⟨s.data.take n⟩

/-- Python emptiness / falsity test of a string. -/
def pyIsEmpty (s : String) : Bool := s.data.isEmpty

/-! ## `ContentAnalyzer.preprocess_text` (the spaCy-absent path)

```python
text = re.sub(r"https?://\S+", "", text)  # Remove URLs
text = re.sub(r"[^\w\s.,!?]", " ", text)  # Remove special characters
text = re.sub(r"\s+", " ", text).strip()  # Normalize whitespace
```
-/

/-- Match the regex `https?://\S+` at the head of the list; return the suffix
after the match (at least one non-space character must follow the scheme). -/
def urlSuffix (l : List Char) : Option (List Char) :=
  let afterScheme : Option (List Char) :=
    if ['h','t','t','p','s',':','/','/'].isPrefixOf l then some (l.drop 8)
    else if ['h','t','t','p',':','/','/'].isPrefixOf l then some (l.drop 7)
    else none
  match afterScheme with
  | none => none
  | some rest =>
    match rest with
    | [] => none
    | c :: _ =>
      if isPySpace c then none
      else some (rest.dropWhile (fun d => ¬ isPySpace d))

/-- Model of the substitution removing URL spans, fuel-based scan (fuel = list length,
so the zero-fuel clause is never reached on the initial call). -/
def removeUrlsAux : ℕ → List Char → List Char
  | 0, l => l
  | _ + 1, [] => []
  | fuel + 1, c :: r =>
    match urlSuffix (c :: r) with
    | some rest => removeUrlsAux fuel rest
    | none => c :: removeUrlsAux fuel r

def removeUrls (l : List Char) : List Char := removeUrlsAux l.length l

/-- Model of the special-character substitution: characters outside
word characters, whitespace, `.`, `,`, `!`, `?` become a space. -/
def keepOrSpace (c : Char) : Char :=
  if isPyWord c || isPySpace c || c = '.' || c = ',' || c = '!' || c = '?' then c
  else ' '

/-- Model of the whitespace substitution: collapse whitespace runs to a single space. -/
def collapseWs : List Char → List Char
  | [] => []
  | [c] => if isPySpace c then [' '] else [c]
  | c :: d :: r =>
    if isPySpace c then
      if isPySpace d then collapseWs (d :: r)
      else ' ' :: collapseWs (d :: r)
    else c :: collapseWs (d :: r)

/-- Model of `ContentAnalyzer.preprocess_text`, spaCy-absent path. -/
def preprocess (text : String) : String :=
  ⟨pyStrip (collapseWs ((removeUrls text.data).map keepOrSpace))⟩

/-! ## A small matching engine for the fixed rule tables

Each source pattern is `\b(alt₁|alt₂|…)\bᵢ` where every alternative is a
sequence of literal characters, character classes (`[a@]`, `[y!ie]`) and
whitespace gaps (`\s+` / `\s*`).  Matching follows `re.findall`: scan left to
right, at each position try the alternatives in order (an alternative whose
trailing word-boundary fails is abandoned and the next one tried), count
non-overlapping matches and resume after the matched span.  Whitespace gaps
are matched greedily, which is exact here because every gap is followed by a
letter literal. -/

inductive PTok where
  | lit (c : Char)
  | cls (cs : List Char)
  | ws1
  | ws0
deriving DecidableEq

/-- Literal tokens of a phrase. -/
def lits (s : String) : List PTok := s.data.map PTok.lit

/-- Match a token sequence at the head of the list; return the suffix. -/
def matchToks : List PTok → List Char → Option (List Char)
  | [], l => some l
  | .lit c :: ts, x :: l => if x = c then matchToks ts l else none
  | .cls cs :: ts, x :: l => if x ∈ cs then matchToks ts l else none
  | .ws1 :: ts, x :: l =>
    if isPySpace x then matchToks ts ((x :: l).dropWhile isPySpace) else none
  | .ws0 :: ts, l => matchToks ts (l.dropWhile isPySpace)
  | _ :: _, [] => none

/-- Word-boundary test between an optional previous character and an optional
next character (out-of-string counts as non-word). -/
def isBoundary (prev next : Option Char) : Bool :=
  (match prev with | none => false | some c => isPyWord c)
    ≠ (match next with | none => false | some c => isPyWord c)

/-- Try the alternatives in order at the current position; return the length
of the first match whose trailing word boundary holds. -/
def tryAlts (alts : List (List PTok)) (l : List Char) : Option ℕ :=
  match alts with
  | [] => none
  | alt :: rest =>
    match matchToks alt l with
    | some suffix =>
      let n := l.length - suffix.length
      if 0 < n ∧ isBoundary (l.get? (n - 1)) suffix.head? then some n
      else tryAlts rest l
    | none => tryAlts rest l

/-- Count the matches of `\b(alts)\b` in the list, scanning left to right
(fuel = list length; every successful match consumes at least one char). -/
def scanCount (alts : List (List PTok)) : ℕ → Option Char → List Char → ℕ
  | 0, _, _ => 0
  | _ + 1, _, [] => 0
  | fuel + 1, prev, c :: r =>
    if isBoundary prev (some c) then
      match tryAlts alts (c :: r) with
      | some n =>
        1 + scanCount alts fuel ((c :: r).get? (n - 1)) ((c :: r).drop n)
      | none => scanCount alts fuel (some c) r
    else scanCount alts fuel (some c) r

/-- Count `len(re.findall(pattern, text))` for one rule group. -/
def countPattern (alts : List (List PTok)) (l : List Char) : ℕ :=
  scanCount alts l.length none l

/-- Total match count over a list of rule groups (the per-pattern sum the code
takes over its three regexes). -/
def countAll (pats : List (List (List PTok))) (l : List Char) : ℕ :=
  (pats.map (fun p => countPattern p l)).sum

/-! ### The fixed rule tables (`transphobic_patterns` / `friendly_patterns`) -/

def transPatterns : List (List (List PTok)) :=
  [ [ lits "only" ++ [.ws1] ++ lits "two" ++ [.ws1] ++ lits "genders",
      lits "attack" ++ [.ws1] ++ lits "helicopter",
      lits "basic" ++ [.ws1] ++ lits "biology",
      lits "genital" ++ [.ws1] ++ lits "mutilation" ],
    [ lits "trans" ++ [.ws0] ++ lits "cult",
      lits "trans" ++ [.ws0] ++ lits "ideology",
      lits "tr" ++ [.cls ['a', '@']] ++ lits "nn" ++ [.cls ['y', '!', 'i', 'e']],
      lits "alphabet" ++ [.ws1] ++ lits "mafia",
      lits "lgb" ++ [.ws0] ++ lits "drop" ++ [.ws0] ++ lits "the" ++ [.ws0] ++ lits "t" ],
    [ lits "gender" ++ [.ws0] ++ lits "confused",
      lits "gender" ++ [.ws0] ++ lits "delusion",
      lits "transgenderism",
      lits "gender" ++ [.ws0] ++ lits "ideology",
      lits "woke" ++ [.ws0] ++ lits "gender" ] ]

def friendlyPatterns : List (List (List PTok)) :=
  [ [ lits "trans" ++ [.ws0] ++ lits "rights",
      lits "trans" ++ [.ws0] ++ lits "women" ++ [.ws0] ++ lits "are" ++ [.ws0] ++ lits "women",
      lits "trans" ++ [.ws0] ++ lits "men" ++ [.ws0] ++ lits "are" ++ [.ws0] ++ lits "men",
      lits "protect" ++ [.ws0] ++ lits "trans" ++ [.ws0] ++ lits "kids" ],
    [ lits "gender" ++ [.ws0] ++ lits "affirming",
      lits "respect" ++ [.ws0] ++ lits "pronouns",
      lits "transgender" ++ [.ws0] ++ lits "visibility",
      lits "support" ++ [.ws0] ++ lits "trans" ],
    [ lits "gender" ++ [.ws0] ++ lits "expression",
      lits "gender" ++ [.ws0] ++ lits "identity",
      lits "nonbinary" ++ [.ws0] ++ lits "rights",
      lits "trans" ++ [.ws0] ++ lits "healthcare",
      lits "gender" ++ [.ws0] ++ lits "euphoria" ] ]

/-! ## Verdicts -/

/-- Provenance tag of a verdict: the `method` / `source` / `error` field of the
result dictionaries, folded into one enumeration. -/
inductive Source where
  | ollama
  | patternMatching
  | insufficientText
  | profileAnalysis
  | noPosts
  | knownTransphobicDomain
  | knownTransfriendlyDomain
  | noCcData
  | noContentExtracted
  | patternAnalysis
  | linkAggregate
  | noLinks
  | noValidDomains
  | noAnalysisResults
deriving DecidableEq

/-- A classification result: `classification ∈ {0,1,2}` (friendly, gray area,
transphobic), a confidence, a provenance tag, and the
`classification_adjusted_by` marker set by the reconciliation rule. -/
structure Verdict where
  classification : ℤ
  confidence : ℚ
  source : Source
  adjustedBy : Option Source := none
deriving DecidableEq

/-! ## `ContentAnalyzer.analyze_with_patterns` -/

/-- The count-to-verdict arithmetic of `analyze_with_patterns` (lines 155-187):

```python
total_matches = transphobic_count + friendly_count
if total_matches == 0: return {classification: 1, confidence: 0.3, ...}
transphobic_score = transphobic_count / total_matches
if transphobic_score > 0.7:   classification, confidence = 2, 0.5 + (score-0.7)*1.5
elif transphobic_score < 0.3: classification, confidence = 0, 0.5 + (0.3-score)*1.5
else:                         classification, confidence = 1, 0.3
return {..., confidence: min(confidence, 0.95), ...}
``` -/
def patternVerdictFromCounts (t f : ℕ) : Verdict :=
  if t + f = 0 then ⟨1, 3/10, .patternMatching, none⟩
  else if (t : ℚ) / ((t : ℚ) + (f : ℚ)) > 7/10 then
    ⟨2, min (1/2 + ((t : ℚ) / ((t : ℚ) + (f : ℚ)) - 7/10) * (3/2)) (19/20), .patternMatching, none⟩
  else if (t : ℚ) / ((t : ℚ) + (f : ℚ)) < 3/10 then
    ⟨0, min (1/2 + (3/10 - (t : ℚ) / ((t : ℚ) + (f : ℚ))) * (3/2)) (19/20), .patternMatching, none⟩
  else
    ⟨1, min (3/10) (19/20), .patternMatching, none⟩

/-- Model of `ContentAnalyzer.analyze_with_patterns`: lower-case the text, count the two
rule tables, shape the verdict. -/
def analyzeWithPatterns (text : String) : Verdict :=
  let l := lowerL text.data
  patternVerdictFromCounts (countAll transPatterns l) (countAll friendlyPatterns l)

/-! ## `ContentAnalyzer.analyze_with_ollama` and `analyze_text` -/

/-- Outcome of the single HTTP POST to the Ollama backend: a raised exception,
or a status code together with the `response` field of the JSON body. -/
inductive OllamaOutcome where
  | failure
  | response (status : ℕ) (body : String)

/-- Model of the digit search of the response body: the first character of the
body that is one of `0`, `1`, `2`. -/
def digitFind (body : String) : Option Char :=
  body.data.find? (fun c => c = '0' || c = '1' || c = '2')

/-- The digit-extraction step of `analyze_with_ollama` (lines 122-130); with no
match the code defaults to the gray area `1`. -/
def extractClassification (body : String) : ℤ :=
  match digitFind body with
  | none => 1
  | some c => if c = '0' then 0 else if c = '1' then 1 else 2

/-- Model of `ContentAnalyzer.analyze_with_ollama`: `None` (here `none`) on a raised
exception or a non-200 status; otherwise a verdict with the extracted digit,
fixed confidence 0.8 and method `ollama`. -/
def analyzeWithOllama (o : OllamaOutcome) : Option Verdict :=
  match o with
  | .failure => none
  | .response status body =>
    if status = 200 then some ⟨extractClassification body, 4/5, .ollama, none⟩
    else none

/-- Model of `ContentAnalyzer.analyze_text`:

```python
if not text or len(text.strip()) < 5: return {classification: 1, confidence: 0.1, error: insufficient_text}
processed_text = self.preprocess_text(text)
if self.ollama_available:
    ollama_result = self.analyze_with_ollama(processed_text[:8000])
    if ollama_result: return ollama_result
return self.analyze_with_patterns(processed_text)
```

(`not text` is subsumed by the length test: an empty string strips to length
0.  The `[:8000]` truncation only affects the prompt sent to the oracle.) -/
def analyzeText (text : String) (ollamaAvailable : Bool) (o : OllamaOutcome) : Verdict :=
  if (pyStrip text.data).length < 5 then ⟨1, 1/10, .insufficientText, none⟩
  else
    let processed := preprocess text
    if ollamaAvailable then
      match analyzeWithOllama o with
      | some v => v
      | none => analyzeWithPatterns processed
    else analyzeWithPatterns processed

/-! ## `ContentAnalyzer.analyze_profile`

The per-post backend outcomes are an oracle indexed by post position.  The
`np.std` of the classification labels is an exact real square root, so the
profile confidence lives in `ℝ`; everything else stays in `ℚ`. -/

/-- Population variance (`np.std(l)**2`): mean squared deviation from the
mean.  (`np.std` of an empty list is never taken by the code: the empty post
list is rejected first.) -/
def popVar (l : List ℚ) : ℚ :=
  if l.isEmpty then 0
  else (l.map (fun x => (x - l.sum / (l.length : ℚ)) ^ 2)).sum / (l.length : ℚ)

/-- Value `min(1.0, len(posts) / 10.0)` (line 267). -/
def sampleConfidence (n : ℕ) : ℚ := min 1 ((n : ℚ) / 10)

/-- The per-post verdicts of `analyze_profile`: `analyze_text` on each of the
first 20 posts (line 240), with the backend oracle indexed by position. -/
def profileVerdicts (posts : List String) (ollamaAvailable : Bool)
    (o : ℕ → OllamaOutcome) : List Verdict :=
  (posts.take 20).enum.map (fun pi => analyzeText pi.2 ollamaAvailable (o pi.1))

/-- The classification labels of the analyzed posts, as numbers (the list
`classifications` of line 245). -/
def profileLabels (posts : List String) (ollamaAvailable : Bool)
    (o : ℕ → OllamaOutcome) : List ℚ :=
  (profileVerdicts posts ollamaAvailable o).map (fun v => (v.classification : ℚ))

/-- The confidences of the analyzed posts (the list `confidences` of
line 246). -/
def profileConfs (posts : List String) (ollamaAvailable : Bool)
    (o : ℕ → OllamaOutcome) : List ℚ :=
  (profileVerdicts posts ollamaAvailable o).map (fun v => v.confidence)

/-- Value `weighted_avg` of lines 249-255: confidence-weighted mean of the labels,
defaulting to 1 when the total confidence is not positive. -/
def profileWeightedAvg (posts : List String) (ollamaAvailable : Bool)
    (o : ℕ → OllamaOutcome) : ℚ :=
  if 0 < (profileConfs posts ollamaAvailable o).sum then
    (List.zipWith (fun c conf => c * conf) (profileLabels posts ollamaAvailable o)
        (profileConfs posts ollamaAvailable o)).sum /
      (profileConfs posts ollamaAvailable o).sum
  else 1

/-- Value `consistency = 1.0 - np.std(classifications) / 2.0` (line 266). -/
noncomputable def profileConsistency (posts : List String) (ollamaAvailable : Bool)
    (o : ℕ → OllamaOutcome) : ℝ :=
  1 - Real.sqrt (popVar (profileLabels posts ollamaAvailable o)) / 2

/-- Value `final_confidence = min(0.95, (consistency + sample_confidence) / 2.0)`
(lines 269-270). -/
noncomputable def profileFinalConf (posts : List String) (ollamaAvailable : Bool)
    (o : ℕ → OllamaOutcome) : ℝ :=
  min (19/20 : ℝ)
    ((profileConsistency posts ollamaAvailable o +
        (sampleConfidence posts.length : ℝ)) / 2)

/-- Result of `analyze_profile`: classification, final confidence, the
consistency measure it reports, and the sample size. -/
structure ProfileResult where
  classification : ℤ
  confidence : ℝ
  consistency : ℝ
  sampleSize : ℕ
  source : Source

/-- Model of `ContentAnalyzer.analyze_profile` (lines 220-284):

```python
if not posts: return {classification: 1, confidence: 0.1, error: no_posts}
results = [analyze_text(post) for post in posts[:20]]
classifications = [r["classification"] for r in results]
confidences = [r["confidence"] for r in results]
weighted_avg = sum(c*conf)/sum(conf) if sum(conf) > 0 else 1
final = 2 if weighted_avg > 1.6 else 0 if weighted_avg < 0.4 else 1
consistency = 1.0 - np.std(classifications)/2.0
sample_confidence = min(1.0, len(posts)/10.0)
final_confidence = min(0.95, (consistency + sample_confidence)/2.0)
```

(The `no_posts` branch reports no consistency; the field is set to 1 there,
a value no claim depends on.) -/
noncomputable def analyzeProfile (posts : List String) (ollamaAvailable : Bool)
    (o : ℕ → OllamaOutcome) : ProfileResult :=
  if posts.isEmpty then ⟨1, 1/10, 1, 0, .noPosts⟩
  else
    ⟨if profileWeightedAvg posts ollamaAvailable o > 8/5 then 2
      else if profileWeightedAvg posts ollamaAvailable o < 2/5 then 0 else 1,
     profileFinalConf posts ollamaAvailable o,
     profileConsistency posts ollamaAvailable o,
     posts.length, .profileAnalysis⟩

/-! ## `CommonCrawlAnalyzer`: domains and reputation lists -/

/-- Set `known_transphobic_domains` (common_crawl.py lines 38-67). -/
def knownTransphobicDomains : List String :=
  [ "kiwifarms.net", "ovarit.com", "rodeoh.com", "familyresearchcouncil.org",
    "heritage.org", "breitbart.com", "dailywire.com", "thefederalist.com",
    "lifesitenews.com", "womenspaceinternational.org", "womenarexx.org",
    "standingforsex.org", "womenarehuman.com", "fairplayforwomen.com",
    "womensdeclaration.com", "detransvoices.org", "terfisaslur.com",
    "genspect.org", "transgender-trend.com", "pitt.substack.com",
    "jessesingal.substack.com", "grahamlinehan.substack.com",
    "fencesitterz.substack.com", "abigailshrier.substack.com",
    "pduffy.substack.com", "michaelshellenberger.substack.com",
    "thepostmillennial.com", "fpiw.org" ]

/-- Set `known_transfriendly_domains` (common_crawl.py lines 70-99). -/
def knownTransfriendlyDomains : List String :=
  [ "glaad.org", "transequality.org", "thetrevorproject.org", "glsen.org",
    "pflag.org", "mermaidsuk.org.uk", "tgeu.org", "transhub.org.au",
    "genderspectrum.org", "transathlete.com", "transpulseproject.ca",
    "translawcenter.org", "transmascnetwork.org", "translifeline.org",
    "itgetsbetter.org", "gender.wikia.org", "transadvocate.com",
    "transjournalists.org", "juliaserano.com", "transstudent.org",
    "transyouthequality.org", "point5cc.com", "genderanalysis.net",
    "translash.org", "autostraddle.com", "them.us", "bitchmedia.org",
    "everydayfeminism.com" ]

/-- The leading prefix stripped by domain normalization. -/
def wwwPrefix : List Char := ['w', 'w', 'w', '.']

/-- The normalization tail of `_get_domain_from_url`: lower-case, then strip
one leading `www.` when present. -/
def normalizeDomainL (l : List Char) : List Char :=
  if wwwPrefix.isPrefixOf (lowerL l) then (lowerL l).drop 4 else lowerL l

def normalizeDomain (s : String) : String := ⟨normalizeDomainL s.data⟩

/-- Model of `urlparse(u).netloc` for the URL shapes the analyzer builds: the segment
between the first `://` and the following `/`, `?` or `#` (empty when the
string has no `://`, as for `urlparse` without a `//` authority marker). -/
def afterSchemeSep : List Char → Option (List Char)
  | ':' :: '/' :: '/' :: r => some r
  | _ :: r => afterSchemeSep r
  | [] => none

def netlocL (l : List Char) : List Char :=
  match afterSchemeSep l with
  | none => []
  | some r => r.takeWhile (fun c => c ≠ '/' ∧ c ≠ '?' ∧ c ≠ '#')

/-- Model of `CommonCrawlAnalyzer._get_domain_from_url`:

```python
parsed = urlparse(url if url.startswith("http") else "https://" + url)
domain = parsed.netloc.lower()
if domain.startswith("www."): domain = domain[4:]
```
-/
def getDomainFromUrl (url : String) : String :=
  let u := if pyStartsWith url "http" then url else "https://" ++ url
  ⟨normalizeDomainL (netlocL u.data)⟩

/-- Model of `CommonCrawlAnalyzer._check_known_domain_stance`. -/
def checkKnownDomainStance (domain : String) : Option Verdict :=
  if domain ∈ knownTransphobicDomains then
    some ⟨2, 17/20, .knownTransphobicDomain, none⟩
  else if domain ∈ knownTransfriendlyDomains then
    some ⟨0, 17/20, .knownTransfriendlyDomain, none⟩
  else none

/-! ## `CommonCrawlAnalyzer._analyze_domain_content` -/

/-- Per-record oracle outcome: the extracted page text (`none` when the WARC
fetch failed or returned empty content). -/
abbrev CCRecord := Option String

/-- The text collection loop (lines 262-269): the extracted texts of the first
3 records, skipping failures and empty extractions, each capped to 10000
characters. -/
def ccContents (records : List CCRecord) : List String :=
  (records.take 3).filterMap
    (fun rt => rt.bind (fun t => if pyIsEmpty t then none else some (pyTake t 10000)))

/-- Transphobic-pattern matches summed over the lowered contents
(lines 296-304; the same rule table as `ContentAnalyzer`). -/
def ccTransCount (contents : List String) : ℕ :=
  (contents.map (fun c => countAll transPatterns (lowerL c.data))).sum

/-- Friendly-pattern matches summed over the lowered contents. -/
def ccFriendlyCount (contents : List String) : ℕ :=
  (contents.map (fun c => countAll friendlyPatterns (lowerL c.data))).sum

/-- The count-to-verdict arithmetic of `_analyze_domain_content`
(lines 306-339); note the confidence shaping differs from
`patternVerdictFromCounts`:

```python
if total_matches == 0: return {classification: 1, confidence: 0.3, source: pattern_analysis}
transphobic_ratio = transphobic_count / total_matches
if transphobic_ratio > 0.7:   classification, confidence = 2, 0.5 + min(0.4, ratio - 0.7)
elif transphobic_ratio < 0.3: classification, confidence = 0, 0.5 + min(0.4, 0.3 - ratio)
else:                         classification, confidence = 1, 0.3
``` -/
def domainVerdictFromCounts (t f : ℕ) : Verdict :=
  if t + f = 0 then ⟨1, 3/10, .patternAnalysis, none⟩
  else if (t : ℚ) / ((t : ℚ) + (f : ℚ)) > 7/10 then
    ⟨2, 1/2 + min (2/5) ((t : ℚ) / ((t : ℚ) + (f : ℚ)) - 7/10), .patternAnalysis, none⟩
  else if (t : ℚ) / ((t : ℚ) + (f : ℚ)) < 3/10 then
    ⟨0, 1/2 + min (2/5) (3/10 - (t : ℚ) / ((t : ℚ) + (f : ℚ))), .patternAnalysis, none⟩
  else
    ⟨1, 3/10, .patternAnalysis, none⟩

/-- Model of `CommonCrawlAnalyzer._analyze_domain_content`: known-list short circuit,
then the Common Crawl sampling cascade (`records` is the oracle for
`_fetch_cc_records_for_domain` + `_fetch_warc_record` + text extraction). -/
def analyzeDomainContent (domain : String) (records : List CCRecord) : Verdict :=
  match checkKnownDomainStance domain with
  | some v => v
  | none =>
    if records.isEmpty then ⟨1, 1/10, .noCcData, none⟩
    else if (ccContents records).isEmpty then ⟨1, 1/10, .noContentExtracted, none⟩
    else domainVerdictFromCounts (ccTransCount (ccContents records))
      (ccFriendlyCount (ccContents records))

/-! ## `CommonCrawlAnalyzer.analyze_links` -/

/-- First-occurrence deduplication (`domains = set(...)`, with iteration
modelled in first-occurrence order). -/
def dedupAux : List String → List String → List String
  | [], _ => []
  | x :: r, seen => if x ∈ seen then dedupAux r seen else x :: dedupAux r (x :: seen)

/-- The deduplicated, non-empty domains of the link list (lines 383-387). -/
def linkDomains (links : List String) : List String :=
  dedupAux ((links.map getDomainFromUrl).filter (fun d => ¬ pyIsEmpty d)) []

/-- The accumulation loop of `analyze_links` (lines 397-431): a known-list hit
is always appended; an unknown domain is analyzed only while fewer than 5
results (of any kind) have been accumulated. -/
def linkLoop (cc : String → List CCRecord) :
    List String → List (String × Verdict) → List (String × Verdict)
  | [], acc => acc
  | d :: ds, acc =>
    match checkKnownDomainStance d with
    | some v => linkLoop cc ds (acc ++ [(d, v)])
    | none =>
      if 5 ≤ acc.length then linkLoop cc ds acc
      else linkLoop cc ds (acc ++ [(d, analyzeDomainContent d (cc d))])

/-- The per-domain results of `analyze_links`. -/
def linkResults (links : List String) (cc : String → List CCRecord) :
    List (String × Verdict) :=
  linkLoop cc (linkDomains links) []

/-- Aggregate result of `analyze_links`; `domainResults` is the
`domain_results` detail list (domain, classification, confidence). -/
structure LinkAggregate where
  classification : ℤ
  confidence : ℚ
  source : Source
  domainResults : List (String × ℤ × ℚ)
deriving DecidableEq

/-- The per-domain confidence list of `analyze_links` (line 442-447). -/
def linkConfs (links : List String) (cc : String → List CCRecord) : List ℚ :=
  (linkResults links cc).map (fun r => r.2.confidence)

/-- Value `weighted_avg` of lines 449-456. -/
def linkWeightedAvg (links : List String) (cc : String → List CCRecord) : ℚ :=
  if 0 < (linkConfs links cc).sum then
    (List.zipWith (fun c conf => c * conf)
        ((linkResults links cc).map (fun r => (r.2.classification : ℚ)))
        (linkConfs links cc)).sum / (linkConfs links cc).sum
  else 1

/-- Value `overall_confidence = sum(confidences) / len(confidences)` (line 467). -/
def linkOverallConf (links : List String) (cc : String → List CCRecord) : ℚ :=
  (linkConfs links cc).sum / ((linkConfs links cc).length : ℚ)

/-- Model of `CommonCrawlAnalyzer.analyze_links` (lines 365-481). -/
def analyzeLinks (links : List String) (cc : String → List CCRecord) : LinkAggregate :=
  if links.isEmpty then ⟨1, 1/10, .noLinks, []⟩
  else if (linkDomains links).isEmpty then ⟨1, 1/10, .noValidDomains, []⟩
  else if (linkResults links cc).isEmpty then ⟨1, 1/10, .noAnalysisResults, []⟩
  else
    ⟨if linkWeightedAvg links cc > 8/5 then 2
      else if linkWeightedAvg links cc < 2/5 then 0 else 1,
     linkOverallConf links cc, .linkAggregate,
     (linkResults links cc).map (fun r => (r.1, r.2.classification, r.2.confidence))⟩

/-! ## The cross-signal override rule (`app.py`)

```python
if result["confidence"] < 0.6 and cc_result["confidence"] > 0.7:
    result["classification"] = cc_result["classification"]
    result["confidence"] = (result["confidence"] + cc_result["confidence"]) / 2
    result["classification_adjusted_by"] = "common_crawl"
```
(lines 200-204; lines 147-151 are the same rule with the linked-sites
aggregate as the secondary signal). -/
def reconcile (primary secondary : Verdict) : Verdict :=
  if primary.confidence < 3/5 ∧ 7/10 < secondary.confidence then
    { primary with
      classification := secondary.classification
      confidence := (primary.confidence + secondary.confidence) / 2
      adjustedBy := some secondary.source }
  else primary

/-! ## Spec-side definition for the claim C2 comparison

The spec phrases the short-text guard as a bound on the number of
non-whitespace characters; the guard in the code is `len(text.strip()) < 5`.
This definition follows the wording of the spec, to be compared with
`analyzeText`. -/

/-- Modelled from the spec: the number of non-whitespace characters of a text
("texts shorter than 5 non-whitespace characters"). -/
def nonWhitespaceCount (s : String) : ℕ :=
  (s.data.filter (fun c => ¬ isPySpace c)).length

/-- Test vector for claim C4: five known-transphobic domains followed by one
unknown domain. -/
def links5 : List String :=
  ["kiwifarms.net", "ovarit.com", "rodeoh.com", "heritage.org", "breitbart.com",
   "example.com"]

/-! ## The Verdict invariant (the property of claim C6) -/

/-- The data-model invariant: a classification among the three enum values and
a confidence in `[0,1]`. -/
def ValidVerdict (v : Verdict) : Prop :=
  (v.classification = 0 ∨ v.classification = 1 ∨ v.classification = 2) ∧
  0 ≤ v.confidence ∧ v.confidence ≤ 1

/-! ## Helper lemmas -/

theorem patternVerdictFromCounts_conf_bounds (t f : ℕ) :
    3/10 ≤ (patternVerdictFromCounts t f).confidence ∧
    (patternVerdictFromCounts t f).confidence ≤ 19/20 := by
  unfold patternVerdictFromCounts
  split_ifs with h1 h2 h3
  · norm_num
  · refine ⟨le_min (by nlinarith) (by norm_num), min_le_right _ _⟩
  · refine ⟨le_min (by nlinarith) (by norm_num), min_le_right _ _⟩
  · norm_num

theorem patternVerdictFromCounts_class (t f : ℕ) :
    (patternVerdictFromCounts t f).classification = 0 ∨
    (patternVerdictFromCounts t f).classification = 1 ∨
    (patternVerdictFromCounts t f).classification = 2 := by
  unfold patternVerdictFromCounts
  split_ifs <;> simp

theorem patternVerdictFromCounts_source (t f : ℕ) :
    (patternVerdictFromCounts t f).source = .patternMatching := by
  unfold patternVerdictFromCounts
  split_ifs <;> rfl

theorem extractClassification_mem (body : String) :
    extractClassification body = 0 ∨ extractClassification body = 1 ∨
    extractClassification body = 2 := by
  unfold extractClassification
  rcases digitFind body with _ | c
  · simp
  · simp only
    split_ifs <;> simp

theorem analyzeWithOllama_some {o : OllamaOutcome} {v : Verdict}
    (h : analyzeWithOllama o = some v) :
    (v.classification = 0 ∨ v.classification = 1 ∨ v.classification = 2) ∧
    v.confidence = 4/5 ∧ v.source = .ollama := by
  rcases o with _ | ⟨st, body⟩
  · simp [analyzeWithOllama] at h
  · simp only [analyzeWithOllama] at h
    split_ifs at h
    cases Option.some.inj h
    exact ⟨extractClassification_mem body, rfl, rfl⟩

theorem analyzeWithPatterns_eq (text : String) :
    analyzeWithPatterns text =
      patternVerdictFromCounts (countAll transPatterns (lowerL text.data))
        (countAll friendlyPatterns (lowerL text.data)) := rfl

theorem analyzeText_class (text : String) (avail : Bool) (o : OllamaOutcome) :
    (analyzeText text avail o).classification = 0 ∨
    (analyzeText text avail o).classification = 1 ∨
    (analyzeText text avail o).classification = 2 := by
  unfold analyzeText
  split_ifs with h1 h2
  · simp
  · cases h : analyzeWithOllama o with
    | some v => simpa [h] using (analyzeWithOllama_some h).1
    | none => simpa [h, analyzeWithPatterns_eq] using patternVerdictFromCounts_class _ _
  · simpa [analyzeWithPatterns_eq] using patternVerdictFromCounts_class _ _

theorem analyzeText_conf_bounds (text : String) (avail : Bool) (o : OllamaOutcome) :
    1/10 ≤ (analyzeText text avail o).confidence ∧
    (analyzeText text avail o).confidence ≤ 19/20 := by
  unfold analyzeText
  split_ifs with h1 h2
  · norm_num
  · cases h : analyzeWithOllama o with
    | some v =>
      have := (analyzeWithOllama_some h).2.1
      simp only [h]
      rw [this]; norm_num
    | none =>
      simp only [h, analyzeWithPatterns_eq]
      have hb := patternVerdictFromCounts_conf_bounds (countAll transPatterns (lowerL (preprocess text).data)) (countAll friendlyPatterns (lowerL (preprocess text).data))
      exact ⟨by linarith [hb.1], hb.2⟩
  · simp only [analyzeWithPatterns_eq]
    have hb := patternVerdictFromCounts_conf_bounds (countAll transPatterns (lowerL (preprocess text).data)) (countAll friendlyPatterns (lowerL (preprocess text).data))
    exact ⟨by linarith [hb.1], hb.2⟩

theorem analyzeText_valid (text : String) (avail : Bool) (o : OllamaOutcome) :
    ValidVerdict (analyzeText text avail o) := by
  have h1 := analyzeText_class text avail o
  have h2 := analyzeText_conf_bounds text avail o
  exact ⟨h1, by linarith [h2.1], by linarith [h2.2]⟩

theorem sum_sq_dev (l : List ℚ) (m : ℚ) :
    (l.map (fun x => (x - m) ^ 2)).sum =
      (l.map (fun x => x ^ 2)).sum - 2 * m * l.sum + (l.length : ℚ) * m ^ 2 := by
  induction l with
  | nil => simp
  | cons a r ih =>
    simp only [List.map_cons, List.sum_cons, List.length_cons, ih]
    push_cast
    ring

theorem popVar_nonneg (l : List ℚ) : 0 ≤ popVar l := by
  unfold popVar
  split_ifs with h
  · exact le_refl 0
  · apply div_nonneg
    · apply List.sum_nonneg
      intro x hx
      rcases List.mem_map.1 hx with ⟨y, _, rfl⟩
      positivity
    · positivity

theorem sum_map_two_mul (l : List ℚ) : (l.map (fun x => 2 * x)).sum = 2 * l.sum := by
  induction l with
  | nil => simp
  | cons a r ih =>
    simp only [List.map_cons, List.sum_cons, ih]
    ring

theorem popVar_le_one (l : List ℚ) (h : ∀ x ∈ l, x = 0 ∨ x = 1 ∨ x = 2) :
    popVar l ≤ 1 := by
  unfold popVar
  split_ifs with he
  · norm_num
  · have hne : l ≠ [] := by
      intro hl; rw [hl] at he; simp at he
    have hn : 0 < (l.length : ℚ) := by
      have := List.length_pos.mpr hne
      exact_mod_cast this
    rw [sum_sq_dev, div_le_one hn]
    have hsq : (l.map (fun x => x ^ 2)).sum ≤ (l.map (fun x => 2 * x)).sum := by
      apply List.sum_le_sum
      intro x hx
      rcases h x hx with rfl | rfl | rfl <;> norm_num
    rw [sum_map_two_mul l] at hsq
    have hmn : l.sum / (l.length : ℚ) * (l.length : ℚ) = l.sum :=
      div_mul_cancel₀ _ (ne_of_gt hn)
    nlinarith [mul_nonneg hn.le (sq_nonneg (1 - l.sum / (l.length : ℚ)))]

theorem popVar_singleton (x : ℚ) : popVar [x] = 0 := by
  simp [popVar]

theorem profileLabels_mem (posts : List String) (avail : Bool) (o : ℕ → OllamaOutcome) :
    ∀ x ∈ profileLabels posts avail o, x = 0 ∨ x = 1 ∨ x = 2 := by
  intro x hx
  rcases List.mem_map.1 hx with ⟨v, hv, rfl⟩
  rcases List.mem_map.1 hv with ⟨pi, _, rfl⟩
  rcases analyzeText_class pi.2 avail (o pi.1) with h | h | h <;>
    rw [h] <;> norm_num

theorem profileConsistency_bounds (posts : List String) (avail : Bool)
    (o : ℕ → OllamaOutcome) :
    1/2 ≤ profileConsistency posts avail o ∧ profileConsistency posts avail o ≤ 1 := by
  unfold profileConsistency
  have h0 : (0:ℝ) ≤ Real.sqrt (popVar (profileLabels posts avail o)) := Real.sqrt_nonneg _
  have h1 : Real.sqrt (popVar (profileLabels posts avail o)) ≤ 1 := by
    rw [Real.sqrt_le_one]
    have := popVar_le_one _ (profileLabels_mem posts avail o)
    exact_mod_cast this
  constructor <;> linarith

theorem sampleConfidence_bounds (n : ℕ) :
    0 ≤ sampleConfidence n ∧ sampleConfidence n ≤ 1 := by
  unfold sampleConfidence
  constructor
  · apply le_min <;> positivity
  · exact min_le_left _ _

theorem profileFinalConf_bounds (posts : List String) (avail : Bool)
    (o : ℕ → OllamaOutcome) :
    1/4 ≤ profileFinalConf posts avail o ∧ profileFinalConf posts avail o ≤ 19/20 := by
  unfold profileFinalConf
  have hc := profileConsistency_bounds posts avail o
  have hs := sampleConfidence_bounds posts.length
  have hs' : (0:ℝ) ≤ (sampleConfidence posts.length : ℝ) := by exact_mod_cast hs.1
  constructor
  · apply le_min
    · norm_num
    · linarith
  · exact min_le_left _ _

theorem analyzeProfile_eq_of_ne (posts : List String) (avail : Bool)
    (o : ℕ → OllamaOutcome) (h : posts ≠ []) :
    analyzeProfile posts avail o =
      ⟨if profileWeightedAvg posts avail o > 8/5 then 2
        else if profileWeightedAvg posts avail o < 2/5 then 0 else 1,
       profileFinalConf posts avail o, profileConsistency posts avail o,
       posts.length, .profileAnalysis⟩ := by
  cases posts with
  | nil => cases h rfl
  | cons a r => rfl

theorem profileWeightedAvg_single (p : String) (avail : Bool) (o : ℕ → OllamaOutcome) :
    profileWeightedAvg [p] avail o = ((analyzeText p avail (o 0)).classification : ℚ) := by
  have hcf := (analyzeText_conf_bounds p avail (o 0)).1
  unfold profileWeightedAvg
  have hconfs : profileConfs [p] avail o = [(analyzeText p avail (o 0)).confidence] := rfl
  have hlabels : profileLabels [p] avail o =
      [((analyzeText p avail (o 0)).classification : ℚ)] := rfl
  rw [hconfs, hlabels]
  simp only [List.sum_cons, List.sum_nil, add_zero, List.zipWith_cons_cons,
    List.zipWith_nil]
  rw [if_pos (by linarith)]
  rw [mul_div_assoc, div_self (by linarith), mul_one]

theorem profileConsistency_single (p : String) (avail : Bool) (o : ℕ → OllamaOutcome) :
    profileConsistency [p] avail o = 1 := by
  unfold profileConsistency
  have hlabels : profileLabels [p] avail o =
      [((analyzeText p avail (o 0)).classification : ℚ)] := rfl
  rw [hlabels, popVar_singleton]
  norm_num

theorem profileFinalConf_single (p : String) (avail : Bool) (o : ℕ → OllamaOutcome) :
    profileFinalConf [p] avail o = 11/20 := by
  unfold profileFinalConf
  rw [profileConsistency_single]
  have hs : sampleConfidence ([p] : List String).length = 1/10 := by
    norm_num [sampleConfidence]
  rw [hs]
  norm_num

theorem checkKnown_valid {d : String} {v : Verdict}
    (h : checkKnownDomainStance d = some v) : ValidVerdict v := by
  unfold checkKnownDomainStance at h
  split_ifs at h <;> cases Option.some.inj h <;>
    exact ⟨by norm_num, by norm_num, by norm_num⟩

theorem domainVerdictFromCounts_conf_bounds (t f : ℕ) :
    3/10 ≤ (domainVerdictFromCounts t f).confidence ∧
    (domainVerdictFromCounts t f).confidence ≤ 9/10 := by
  unfold domainVerdictFromCounts
  split_ifs with h1 h2 h3
  · norm_num
  · have hmin : min ((2:ℚ)/5) ((t : ℚ) / ((t : ℚ) + (f : ℚ)) - 7/10) ≤ 2/5 :=
      min_le_left _ _
    have hpos : 0 < min ((2:ℚ)/5) ((t : ℚ) / ((t : ℚ) + (f : ℚ)) - 7/10) :=
      lt_min (by norm_num) (by linarith)
    constructor <;> simp only [Verdict.confidence] <;> linarith
  · have hmin : min ((2:ℚ)/5) (3/10 - (t : ℚ) / ((t : ℚ) + (f : ℚ))) ≤ 2/5 :=
      min_le_left _ _
    have hpos : 0 < min ((2:ℚ)/5) (3/10 - (t : ℚ) / ((t : ℚ) + (f : ℚ))) :=
      lt_min (by norm_num) (by linarith)
    constructor <;> simp only [Verdict.confidence] <;> linarith
  · norm_num

theorem domainVerdictFromCounts_class (t f : ℕ) :
    (domainVerdictFromCounts t f).classification = 0 ∨
    (domainVerdictFromCounts t f).classification = 1 ∨
    (domainVerdictFromCounts t f).classification = 2 := by
  unfold domainVerdictFromCounts
  split_ifs <;> simp

theorem analyzeDomainContent_valid (d : String) (recs : List CCRecord) :
    ValidVerdict (analyzeDomainContent d recs) := by
  unfold analyzeDomainContent
  cases h : checkKnownDomainStance d with
  | some v => exact checkKnown_valid h
  | none =>
    split_ifs
    · exact ⟨by norm_num, by norm_num, by norm_num⟩
    · exact ⟨by norm_num, by norm_num, by norm_num⟩
    · have hb := domainVerdictFromCounts_conf_bounds (ccTransCount (ccContents recs))
        (ccFriendlyCount (ccContents recs))
      exact ⟨domainVerdictFromCounts_class _ _, by linarith [hb.1], by linarith [hb.2]⟩

theorem linkLoop_mem_acc (cc : String → List CCRecord) (ds : List String)
    (acc : List (String × Verdict)) (x : String × Verdict) (hx : x ∈ acc) :
    x ∈ linkLoop cc ds acc := by
  induction ds generalizing acc with
  | nil => exact hx
  | cons e es ih =>
    cases h : checkKnownDomainStance e with
    | some v =>
      simp only [linkLoop, h]
      exact ih _ (List.mem_append_left _ hx)
    | none =>
      simp only [linkLoop, h]
      split_ifs
      · exact ih _ hx
      · exact ih _ (List.mem_append_left _ hx)

theorem linkLoop_known_mem (cc : String → List CCRecord) (ds : List String)
    (acc : List (String × Verdict)) (d : String) (hd : d ∈ ds)
    (hk : (checkKnownDomainStance d).isSome) :
    d ∈ (linkLoop cc ds acc).map Prod.fst := by
  induction ds generalizing acc with
  | nil => cases hd
  | cons e es ih =>
    rcases List.mem_cons.1 hd with rfl | hd'
    · rcases Option.isSome_iff_exists.1 hk with ⟨v, hv⟩
      simp only [linkLoop, hv]
      have : (d, v) ∈ linkLoop cc es (acc ++ [(d, v)]) :=
        linkLoop_mem_acc cc es _ _ (List.mem_append_right _ (List.mem_singleton.2 rfl))
      exact List.mem_map.2 ⟨(d, v), this, rfl⟩
    · cases h : checkKnownDomainStance e with
      | some v =>
        simp only [linkLoop, h]
        exact ih _ hd'
      | none =>
        simp only [linkLoop, h]
        split_ifs
        · exact ih _ hd'
        · exact ih _ hd' 

theorem linkLoop_valid (cc : String → List CCRecord) (ds : List String)
    (acc : List (String × Verdict)) (hacc : ∀ x ∈ acc, ValidVerdict x.2) :
    ∀ x ∈ linkLoop cc ds acc, ValidVerdict x.2 := by
  induction ds generalizing acc with
  | nil => exact hacc
  | cons e es ih =>
    cases h : checkKnownDomainStance e with
    | some v =>
      simp only [linkLoop, h]
      apply ih
      intro x hx
      rcases List.mem_append.1 hx with hx' | hx'
      · exact hacc x hx'
      · rcases List.mem_singleton.1 hx' with rfl
        exact checkKnown_valid h
    | none =>
      simp only [linkLoop, h]
      split_ifs
      · exact ih _ hacc
      · apply ih
        intro x hx
        rcases List.mem_append.1 hx with hx' | hx'
        · exact hacc x hx'
        · rcases List.mem_singleton.1 hx' with rfl
          exact analyzeDomainContent_valid _ _

theorem linkResults_valid (links : List String) (cc : String → List CCRecord) :
    ∀ x ∈ linkResults links cc, ValidVerdict x.2 :=
  linkLoop_valid cc _ [] (by intro x hx; cases hx)

theorem linkOverallConf_bounds (links : List String) (cc : String → List CCRecord)
    (h : linkResults links cc ≠ []) :
    0 ≤ linkOverallConf links cc ∧ linkOverallConf links cc ≤ 1 := by
  unfold linkOverallConf
  have hlen : 0 < ((linkConfs links cc).length : ℚ) := by
    have : linkConfs links cc ≠ [] := by
      unfold linkConfs
      simp [h]
    have := List.length_pos.mpr this
    exact_mod_cast this
  have hmem : ∀ x ∈ linkConfs links cc, 0 ≤ x ∧ x ≤ 1 := by
    intro x hx
    rcases List.mem_map.1 hx with ⟨r, hr, rfl⟩
    have := linkResults_valid links cc r hr
    exact ⟨this.2.1, this.2.2⟩
  constructor
  · apply div_nonneg _ hlen.le
    exact List.sum_nonneg (fun x hx => (hmem x hx).1)
  · rw [div_le_one hlen]
    have := List.sum_le_card_nsmul (linkConfs links cc) 1 (fun x hx => (hmem x hx).2)
    simpa using this

theorem reconcile_valid (p s : Verdict) (hp : ValidVerdict p) (hs : ValidVerdict s) :
    ValidVerdict (reconcile p s) := by
  unfold reconcile
  split_ifs with h
  · refine ⟨hs.1, ?_, ?_⟩
    · have := hp.2.1; have := hs.2.1
      simp only [Verdict.confidence]
      linarith
    · have := hp.2.2; have := hs.2.2
      simp only [Verdict.confidence]
      linarith
  · exact hp

theorem toNat_lowerChar (c : Char) (h : 'A' ≤ c ∧ c ≤ 'Z') :
    (lowerChar c).toNat = c.toNat + 32 := by
  have h65 : 65 ≤ c.toNat := h.1
  have h90 : c.toNat ≤ 90 := h.2
  simp only [lowerChar, if_pos h]
  have hv : Nat.isValidChar (c.toNat + 32) := by
    left; omega
  simp [Char.ofNat, hv]
  rfl

theorem lowerChar_idem (c : Char) : lowerChar (lowerChar c) = lowerChar c := by
  by_cases h : 'A' ≤ c ∧ c ≤ 'Z'
  · have ht := toNat_lowerChar c h
    have h2 : ¬('A' ≤ lowerChar c ∧ lowerChar c ≤ 'Z') := by
      intro hc
      have hle : (lowerChar c).toNat ≤ 90 := hc.2
      have h65 : (65:ℕ) ≤ c.toNat := h.1
      omega
    conv_lhs => rw [lowerChar]
    rw [if_neg h2]
  · have h2 : ¬('A' ≤ lowerChar c ∧ lowerChar c ≤ 'Z') := by
      rw [lowerChar, if_neg h]; exact h
    conv_lhs => rw [lowerChar]
    rw [if_neg h2]

theorem lowerL_idem (l : List Char) : lowerL (lowerL l) = lowerL l := by
  unfold lowerL
  rw [List.map_map]
  exact List.map_congr_left (fun c _ => lowerChar_idem c)

theorem lowerL_normalizeDomainL (l : List Char) :
    lowerL (normalizeDomainL l) = normalizeDomainL l := by
  unfold normalizeDomainL
  split_ifs with h
  · calc lowerL ((lowerL l).drop 4) = (lowerL (lowerL l)).drop 4 := by
          simp only [lowerL, List.map_drop]
      _ = (lowerL l).drop 4 := by rw [lowerL_idem]
  · exact lowerL_idem l

theorem normalizeDomainL_idem (l : List Char)
    (h : ¬ wwwPrefix.isPrefixOf (normalizeDomainL l)) :
    normalizeDomainL (normalizeDomainL l) = normalizeDomainL l := by
  conv_lhs => rw [normalizeDomainL]
  rw [lowerL_normalizeDomainL, if_neg (by simpa using h)]

theorem checkKnown_source {d : String} {v : Verdict}
    (h : checkKnownDomainStance d = some v) :
    v.source = .knownTransphobicDomain ∨ v.source = .knownTransfriendlyDomain := by
  unfold checkKnownDomainStance at h
  split_ifs at h <;> cases Option.some.inj h
  · exact Or.inl rfl
  · exact Or.inr rfl

/-! ## Claim theorems -/

/-- C3: the reconciliation rule replaces the classification of the primary
verdict by that of the secondary and averages the confidences exactly when
`primary.confidence < 0.6` and `secondary.confidence > 0.7`; in every other
case (including primary confidence exactly 0.6 against secondary 0.95) the
classification and confidence of the primary are returned unchanged. -/
theorem c3_reconcile_rule :
    (∀ p s : Verdict, p.confidence < 3/5 ∧ 7/10 < s.confidence →
      reconcile p s =
        ⟨s.classification, (p.confidence + s.confidence) / 2, p.source, some s.source⟩) ∧
    (∀ p s : Verdict, ¬(p.confidence < 3/5 ∧ 7/10 < s.confidence) →
      reconcile p s = p) ∧
    reconcile ⟨0, 3/5, .profileAnalysis, none⟩ ⟨2, 19/20, .patternAnalysis, none⟩ =
      ⟨0, 3/5, .profileAnalysis, none⟩ := by
  refine ⟨?_, ?_, ?_⟩
  · intro p s h
    unfold reconcile
    rw [if_pos h]
  · intro p s h
    unfold reconcile
    rw [if_neg h]
  · unfold reconcile
    rw [if_neg (by norm_num)]

/-- Witness for C3: a pair below/above the thresholds is overridden with the
averaged confidence; a primary at confidence 0.9 is returned unchanged. -/
theorem c3_reconcile_rule_witness :
    reconcile ⟨1, 1/2, .patternMatching, none⟩ ⟨2, 3/4, .patternAnalysis, none⟩ =
      ⟨2, (1/2 + 3/4) / 2, .patternMatching, some .patternAnalysis⟩ ∧
    reconcile ⟨1, 9/10, .patternMatching, none⟩ ⟨2, 3/4, .patternAnalysis, none⟩ =
      ⟨1, 9/10, .patternMatching, none⟩ :=
  ⟨c3_reconcile_rule.1 _ _ (by norm_num), c3_reconcile_rule.2.1 _ _ (by norm_num)⟩

/-- C5: the PatternMatcher verdict from match counts `(t, f)`: zero total
gives gray area at confidence 0.3; otherwise with `ratio = t/(t+f)`,
`ratio > 0.7` gives transphobic at `min(0.95, 0.5 + 1.5*(ratio-0.7))`,
`ratio < 0.3` gives friendly at `min(0.95, 0.5 + 1.5*(0.3-ratio))`, and the
boundary ratios 0.7 and 0.3 fall in the gray area at confidence 0.3. -/
theorem c5_pattern_shaping : ∀ t f : ℕ,
    (t + f = 0 → patternVerdictFromCounts t f = ⟨1, 3/10, .patternMatching, none⟩) ∧
    (0 < t + f →
      ((t : ℚ) / ((t : ℚ) + (f : ℚ)) > 7/10 →
        patternVerdictFromCounts t f =
          ⟨2, min (19/20) (1/2 + (3/2) * ((t : ℚ) / ((t : ℚ) + (f : ℚ)) - 7/10)),
            .patternMatching, none⟩) ∧
      ((t : ℚ) / ((t : ℚ) + (f : ℚ)) < 3/10 →
        patternVerdictFromCounts t f =
          ⟨0, min (19/20) (1/2 + (3/2) * (3/10 - (t : ℚ) / ((t : ℚ) + (f : ℚ)))),
            .patternMatching, none⟩) ∧
      ((t : ℚ) / ((t : ℚ) + (f : ℚ)) = 7/10 →
        patternVerdictFromCounts t f = ⟨1, 3/10, .patternMatching, none⟩) ∧
      ((t : ℚ) / ((t : ℚ) + (f : ℚ)) = 3/10 →
        patternVerdictFromCounts t f = ⟨1, 3/10, .patternMatching, none⟩)) := by
  intro t f
  constructor
  · intro h
    unfold patternVerdictFromCounts
    rw [if_pos h]
  · intro hpos
    have hne : ¬(t + f = 0) := by omega
    refine ⟨?_, ?_, ?_, ?_⟩
    · intro hr
      unfold patternVerdictFromCounts
      rw [if_neg hne, if_pos hr]
      rw [Verdict.mk.injEq]
      refine ⟨rfl, ?_, rfl, rfl⟩
      rw [min_comm]
      ring_nf
    · intro hr
      unfold patternVerdictFromCounts
      rw [if_neg hne, if_neg (by linarith), if_pos hr]
      rw [Verdict.mk.injEq]
      refine ⟨rfl, ?_, rfl, rfl⟩
      rw [min_comm]
      ring_nf
    · intro hr
      unfold patternVerdictFromCounts
      rw [if_neg hne, if_neg (by rw [hr]; norm_num), if_neg (by rw [hr]; norm_num)]
      rw [Verdict.mk.injEq]
      exact ⟨rfl, by norm_num, rfl, rfl⟩
    · intro hr
      unfold patternVerdictFromCounts
      rw [if_neg hne, if_neg (by rw [hr]; norm_num), if_neg (by rw [hr]; norm_num)]
      rw [Verdict.mk.injEq]
      exact ⟨rfl, by norm_num, rfl, rfl⟩

/-- Witness for C5: the five regimes at concrete counts:
no matches, ratio 0.8, ratio 0.2, and the two boundary ratios. -/
theorem c5_pattern_shaping_witness :
    patternVerdictFromCounts 0 0 = ⟨1, 3/10, .patternMatching, none⟩ ∧
    patternVerdictFromCounts 4 1 = ⟨2, 13/20, .patternMatching, none⟩ ∧
    patternVerdictFromCounts 1 4 = ⟨0, 13/20, .patternMatching, none⟩ ∧
    patternVerdictFromCounts 7 3 = ⟨1, 3/10, .patternMatching, none⟩ ∧
    patternVerdictFromCounts 3 7 = ⟨1, 3/10, .patternMatching, none⟩ := by
  refine ⟨(c5_pattern_shaping 0 0).1 rfl, ?_, ?_, ?_, ?_⟩
  · rw [((c5_pattern_shaping 4 1).2 (by norm_num)).1 (by norm_num)]
    simp only [Verdict.mk.injEq]
    norm_num
  · rw [((c5_pattern_shaping 1 4).2 (by norm_num)).2.1 (by norm_num)]
    simp only [Verdict.mk.injEq]
    norm_num
  · exact ((c5_pattern_shaping 7 3).2 (by norm_num)).2.2.1 (by norm_num)
  · exact ((c5_pattern_shaping 3 7).2 (by norm_num)).2.2.2 (by norm_num)

/-- C7: for a domain outside the known lists whose sampled archive content
yields counts with `ratio > 0.7` (resp. `< 0.3`), the site resolver returns
transphobic at `0.5 + min(0.4, ratio - 0.7)` (resp. friendly at
`0.5 + min(0.4, 0.3 - ratio)`); and this shaping differs from the
text-level PatternMatcher shaping at some counts (same classification,
different confidence), so the two formulas are not equivalent. -/
theorem c7_site_shaping :
    (∀ (d : String) (recs : List CCRecord),
      checkKnownDomainStance d = none →
      recs.isEmpty = false →
      (ccContents recs).isEmpty = false →
      0 < ccTransCount (ccContents recs) + ccFriendlyCount (ccContents recs) →
      (((ccTransCount (ccContents recs) : ℚ) /
          ((ccTransCount (ccContents recs) : ℚ) + (ccFriendlyCount (ccContents recs) : ℚ)) >
            7/10 →
        analyzeDomainContent d recs =
          ⟨2, 1/2 + min (2/5)
              ((ccTransCount (ccContents recs) : ℚ) /
                ((ccTransCount (ccContents recs) : ℚ) + (ccFriendlyCount (ccContents recs) : ℚ)) -
                7/10),
            .patternAnalysis, none⟩) ∧
       ((ccTransCount (ccContents recs) : ℚ) /
          ((ccTransCount (ccContents recs) : ℚ) + (ccFriendlyCount (ccContents recs) : ℚ)) <
            3/10 →
        analyzeDomainContent d recs =
          ⟨0, 1/2 + min (2/5)
              (3/10 - (ccTransCount (ccContents recs) : ℚ) /
                ((ccTransCount (ccContents recs) : ℚ) + (ccFriendlyCount (ccContents recs) : ℚ))),
            .patternAnalysis, none⟩))) ∧
    (∃ t f : ℕ,
      (domainVerdictFromCounts t f).classification =
        (patternVerdictFromCounts t f).classification ∧
      (domainVerdictFromCounts t f).confidence ≠
        (patternVerdictFromCounts t f).confidence) := by
  constructor
  · intro d recs hknown hrec hcont hpos
    have hne' : ¬(ccTransCount (ccContents recs) + ccFriendlyCount (ccContents recs) = 0) := by
      omega
    constructor
    · intro hr
      simp only [analyzeDomainContent, hknown, hrec, Bool.false_eq_true, if_false, hcont]
      unfold domainVerdictFromCounts
      rw [if_neg hne', if_pos hr]
    · intro hr
      simp only [analyzeDomainContent, hknown, hrec, Bool.false_eq_true, if_false, hcont]
      unfold domainVerdictFromCounts
      rw [if_neg hne', if_neg (by linarith), if_pos hr]
  · refine ⟨1, 0, ?_, ?_⟩
    · norm_num [domainVerdictFromCounts, patternVerdictFromCounts]
    · norm_num [domainVerdictFromCounts, patternVerdictFromCounts, min_def]

set_option maxRecDepth 8000 in
/-- Witness for C7: `example.org` with one sampled page reading "trans cult"
(counts 1/0, ratio 1) resolves to transphobic at confidence
0.8 = 0.5 + min(0.4, 0.3) — not the 0.95 the text-level shaping gives. -/
theorem c7_site_shaping_witness :
    analyzeDomainContent "example.org" [some "trans cult"] =
      ⟨2, 4/5, .patternAnalysis, none⟩ := by
  have ht : ccTransCount (ccContents [(some "trans cult" : CCRecord)]) = 1 := by decide
  have hf : ccFriendlyCount (ccContents [(some "trans cult" : CCRecord)]) = 0 := by decide
  have h := (c7_site_shaping.1 "example.org" [some "trans cult"] (by decide) (by decide)
    (by decide) (by rw [ht, hf]; norm_num)).1
  rw [ht, hf] at h
  rw [h (by norm_num)]
  simp only [Verdict.mk.injEq]
  norm_num [min_def]

/-- C8: for a one-post list, ProfileAggregator returns exactly the
classification TextClassifier assigns to that post, with consistency 1,
sample confidence 0.1, and final confidence exactly 0.55. -/
theorem c8_single_post_profile (p : String) (avail : Bool) (o : ℕ → OllamaOutcome) :
    (analyzeProfile [p] avail o).classification =
      (analyzeText p avail (o 0)).classification ∧
    (analyzeProfile [p] avail o).consistency = 1 ∧
    sampleConfidence ([p] : List String).length = 1/10 ∧
    (analyzeProfile [p] avail o).confidence = 11/20 := by
  have heq := analyzeProfile_eq_of_ne [p] avail o (by simp)
  rw [heq]
  refine ⟨?_, profileConsistency_single p avail o, by norm_num [sampleConfidence],
    profileFinalConf_single p avail o⟩
  simp only
  rw [profileWeightedAvg_single]
  rcases analyzeText_class p avail (o 0) with h | h | h <;> rw [h] <;> norm_num

theorem domainVerdictFromCounts_source (t f : ℕ) :
    (domainVerdictFromCounts t f).source = .patternAnalysis := by
  unfold domainVerdictFromCounts
  split_ifs <;> rfl

/-- C1 is refuted: a successful (HTTP 200) backend response whose body contains
no digit 0-2 ("unclear") does produce a model-sourced Verdict — gray area with
the fixed model confidence 0.8 and method `ollama` — instead of signalling
unavailable, and TextClassifier returns it rather than falling back to the
PatternMatcher. -/
theorem c1_unparseable_counterexample :
    digitFind "unclear" = none ∧
    analyzeWithOllama (.response 200 "unclear") = some ⟨1, 4/5, .ollama, none⟩ ∧
    analyzeText "trans rights are human rights" true (.response 200 "unclear") =
      ⟨1, 4/5, .ollama, none⟩ :=
  ⟨rfl, rfl, rfl⟩

/-- C1 (amended): ModelClassifier signals unavailable exactly when the backend
call raises or returns a non-200 status; a successful response with no
parseable digit 0-2 yields a model-sourced gray-area Verdict at confidence
0.8; and TextClassifier falls back to the PatternMatcher exactly on the
unavailable outcomes (for texts passing the length guard). -/
theorem c1_unavailable_rule :
    analyzeWithOllama .failure = none ∧
    (∀ (st : ℕ) (body : String), analyzeWithOllama (.response st body) = none ↔ st ≠ 200) ∧
    (∀ body : String, digitFind body = none →
      analyzeWithOllama (.response 200 body) = some ⟨1, 4/5, .ollama, none⟩) ∧
    (∀ (text : String) (o : OllamaOutcome), ¬((pyStrip text.data).length < 5) →
      analyzeWithOllama o = none →
      analyzeText text true o = analyzeWithPatterns (preprocess text)) := by
  refine ⟨rfl, ?_, ?_, ?_⟩
  · intro st body
    constructor
    · intro h hst
      subst hst
      simp [analyzeWithOllama] at h
    · intro h
      simp [analyzeWithOllama, h]
  · intro body hd
    simp [analyzeWithOllama, extractClassification, hd]
  · intro text o hlen hnone
    unfold analyzeText
    rw [if_neg hlen]
    simp [hnone]

/-- Witness for C1 (amended): a 500 status signals unavailable; a 200 response
with no digit yields the gray model verdict; with the backend raising, a
pattern-length text falls back to PatternMatcher. -/
theorem c1_unavailable_rule_witness :
    analyzeWithOllama (.response 500 "2") = none ∧
    analyzeWithOllama (.response 200 "no digits here") = some ⟨1, 4/5, .ollama, none⟩ ∧
    analyzeText "only two genders" true .failure =
      analyzeWithPatterns (preprocess "only two genders") :=
  ⟨(c1_unavailable_rule.2.1 500 "2").2 (by decide),
   c1_unavailable_rule.2.2.1 "no digits here" rfl,
   c1_unavailable_rule.2.2.2 "only two genders" .failure (by decide) rfl⟩

/-- C2 is refuted: "a b c" has 3 non-whitespace characters (fewer than 5), but
its stripped length is 5, so `analyze_text` does not take the
`insufficient_text` branch: with the backend unavailable it runs the
PatternMatcher and returns gray area at confidence 0.3, not 0.1. -/
theorem c2_short_text_counterexample :
    nonWhitespaceCount "a b c" = 3 ∧
    analyzeText "a b c" false .failure = ⟨1, 3/10, .patternMatching, none⟩ ∧
    (analyzeText "a b c" false .failure).source ≠ .insufficientText :=
  ⟨rfl, rfl, by decide⟩

/-- C2 (amended): for every text whose `strip()`-ped length (leading and
trailing whitespace removed, interior whitespace still counted) is below 5,
`analyze_text` returns gray area at confidence exactly 0.1 with source
`insufficient_text`, regardless of backend availability or response. -/
theorem c2_short_text_guard (text : String) (avail : Bool) (o : OllamaOutcome) :
    (pyStrip text.data).length < 5 →
    analyzeText text avail o = ⟨1, 1/10, .insufficientText, none⟩ := by
  intro h
  unfold analyzeText
  rw [if_pos h]

/-- Witness for C2 (amended): "  hi  " strips to length 2 and is rejected even
though the backend would have answered with a parseable digit. -/
theorem c2_short_text_guard_witness :
    (pyStrip ("  hi  " : String).data).length < 5 ∧
    analyzeText "  hi  " true (.response 200 "2") = ⟨1, 1/10, .insufficientText, none⟩ :=
  ⟨by decide, c2_short_text_guard "  hi  " true (.response 200 "2") (by decide)⟩

/-- C9 is refuted: the consistency measure can never be negative — the
population standard deviation of labels in {0,1,2} is at most 1, so
`1 - std/2 ≥ 1/2` for every nonempty post list and every backend behaviour. -/
theorem c9_negative_consistency_counterexample :
    ¬ ∃ (posts : List String) (avail : Bool) (o : ℕ → OllamaOutcome),
        posts ≠ [] ∧ (analyzeProfile posts avail o).consistency < 0 := by
  rintro ⟨posts, avail, o, hne, hlt⟩
  rw [analyzeProfile_eq_of_ne posts avail o hne] at hlt
  have hb := (profileConsistency_bounds posts avail o).1
  simp only at hlt
  linarith

/-- C9 (amended): the consistency measure is the unclamped
`1 - std(classifications)/2` — but it always lies in `[1/2, 1]`, because the
population standard deviation of labels in {0,1,2} is at most 1; no input
produces a negative value. -/
theorem c9_consistency_range (posts : List String) (avail : Bool)
    (o : ℕ → OllamaOutcome) (h : posts ≠ []) :
    (analyzeProfile posts avail o).consistency =
      1 - Real.sqrt (popVar (profileLabels posts avail o)) / 2 ∧
    1/2 ≤ (analyzeProfile posts avail o).consistency ∧
    (analyzeProfile posts avail o).consistency ≤ 1 := by
  rw [analyzeProfile_eq_of_ne posts avail o h]
  exact ⟨rfl, (profileConsistency_bounds posts avail o).1,
    (profileConsistency_bounds posts avail o).2⟩

/-- Witness for C9 (amended): one "hello" post, backend unavailable. -/
theorem c9_consistency_range_witness :
    (analyzeProfile ["hello"] false (fun _ => .failure)).consistency =
      1 - Real.sqrt (popVar (profileLabels ["hello"] false (fun _ => .failure))) / 2 ∧
    1/2 ≤ (analyzeProfile ["hello"] false (fun _ => .failure)).consistency ∧
    (analyzeProfile ["hello"] false (fun _ => .failure)).consistency ≤ 1 :=
  c9_consistency_range ["hello"] false (fun _ => .failure) (by simp)

/-- C10 is refuted: normalization strips only one leading `www.`, so it is not
idempotent — `www.www.example.com` normalizes to `www.example.com`, which a
second normalization shortens again. -/
theorem c10_normalize_counterexample :
    normalizeDomain (normalizeDomain "www.www.example.com") ≠
      normalizeDomain "www.www.example.com" := by decide

/-- C10 (amended): normalization is idempotent on every input whose normalized
form does not itself start with `www.`; and `WWW.Example.com` and
`example.com` normalize to the same domain and resolve to the same reputation
entry. -/
theorem c10_normalize_idem_no_www :
    (∀ s : String, pyStartsWith (normalizeDomain s) "www." = false →
      normalizeDomain (normalizeDomain s) = normalizeDomain s) ∧
    getDomainFromUrl "WWW.Example.com" = getDomainFromUrl "example.com" ∧
    checkKnownDomainStance (getDomainFromUrl "WWW.Example.com") =
      checkKnownDomainStance (getDomainFromUrl "example.com") := by
  refine ⟨?_, by decide, by decide⟩
  intro s h
  simp only [pyStartsWith] at h
  exact congrArg String.mk
    (normalizeDomainL_idem s.data (by rw [Bool.not_eq_true]; exact h))

/-- Witness for C10 (amended): `example.com` is already normalized and
renormalizes to itself. -/
theorem c10_normalize_idem_no_www_witness :
    normalizeDomain (normalizeDomain "example.com") = normalizeDomain "example.com" :=
  c10_normalize_idem_no_www.1 "example.com" (by decide)

set_option maxRecDepth 8000 in
/-- C4 is refuted: in `links5` the five known-list hits fill the result list
to the cap of 5, after which the unknown domain `example.com` is skipped —
without a single unknown-domain resolution having been performed.  Known-list
hits therefore do count against the cap. -/
theorem c4_cap_counterexample :
    "example.com" ∈ linkDomains links5 ∧
    checkKnownDomainStance "example.com" = none ∧
    (analyzeLinks links5 (fun _ => [])).domainResults.map (fun r => r.1) =
      ["kiwifarms.net", "ovarit.com", "rodeoh.com", "heritage.org", "breitbart.com"] ∧
    "example.com" ∉ (analyzeLinks links5 (fun _ => [])).domainResults.map (fun r => r.1) :=
  ⟨by decide, by decide, by decide, by decide⟩

/-- C4 (amended): every known-list domain of the link set is resolved and
included no matter how many results are already accumulated; but the cap of 5
counts results of every kind, so an unknown domain is skipped as soon as 5
results — known-list hits included — have been accumulated. -/
theorem c4_known_always_included :
    (∀ (links : List String) (cc : String → List CCRecord) (d : String),
      d ∈ linkDomains links → (checkKnownDomainStance d).isSome →
      d ∈ (linkResults links cc).map Prod.fst) ∧
    (∀ (cc : String → List CCRecord) (d : String) (ds : List String)
        (acc : List (String × Verdict)),
      checkKnownDomainStance d = none → 5 ≤ acc.length →
      linkLoop cc (d :: ds) acc = linkLoop cc ds acc) := by
  constructor
  · intro links cc d hd hk
    exact linkLoop_known_mem cc _ [] d hd hk
  · intro cc d ds acc hnone hlen
    simp only [linkLoop, hnone]
    rw [if_pos hlen]

/-- Witness for C4 (amended): `kiwifarms.net` (known) is included in the
`links5` results, and an unknown domain is skipped against a 5-entry
accumulator. -/
theorem c4_known_always_included_witness :
    "kiwifarms.net" ∈ (linkResults links5 (fun _ => [])).map Prod.fst ∧
    linkLoop (fun _ => []) ["example.com"]
        (List.replicate 5 ("kiwifarms.net", (⟨2, 17/20, .knownTransphobicDomain, none⟩ : Verdict))) =
      List.replicate 5 ("kiwifarms.net", (⟨2, 17/20, .knownTransphobicDomain, none⟩ : Verdict)) :=
  ⟨c4_known_always_included.1 links5 (fun _ => []) "kiwifarms.net" (by decide) (by decide),
   c4_known_always_included.2 (fun _ => []) "example.com" []
     (List.replicate 5 ("kiwifarms.net", (⟨2, 17/20, .knownTransphobicDomain, none⟩ : Verdict)))
     (by decide) (by decide)⟩

theorem analyzeText_insufficient_conf (text : String) (avail : Bool) (o : OllamaOutcome) :
    (analyzeText text avail o).source = .insufficientText →
    (analyzeText text avail o).confidence ≤ 1/10 := by
  unfold analyzeText
  split_ifs with h1 h2
  · intro _
    norm_num
  · cases h : analyzeWithOllama o with
    | some v =>
      intro hs
      simp only [h] at hs
      rw [(analyzeWithOllama_some h).2.2] at hs
      cases hs
    | none =>
      intro hs
      simp only [h, analyzeWithPatterns_eq] at hs
      rw [patternVerdictFromCounts_source] at hs
      cases hs
  · intro hs
    simp only [analyzeWithPatterns_eq] at hs
    rw [patternVerdictFromCounts_source] at hs
    cases hs

theorem analyzeProfile_noPosts_conf (posts : List String) (avail : Bool)
    (o : ℕ → OllamaOutcome) :
    (analyzeProfile posts avail o).source = .noPosts →
    (analyzeProfile posts avail o).confidence ≤ 1/10 := by
  cases posts with
  | nil =>
    intro _
    exact le_refl _
  | cons a r =>
    intro hs
    rw [analyzeProfile_eq_of_ne (a :: r) avail o (by simp)] at hs
    cases hs

theorem analyzeDomainContent_nodata_conf (d : String) (recs : List CCRecord) :
    (analyzeDomainContent d recs).source = .noCcData ∨
      (analyzeDomainContent d recs).source = .noContentExtracted →
    (analyzeDomainContent d recs).confidence ≤ 1/10 := by
  unfold analyzeDomainContent
  cases h : checkKnownDomainStance d with
  | some v =>
    intro hs
    rcases checkKnown_source h with h2 | h2 <;> rcases hs with hs | hs <;>
      rw [h2] at hs <;> cases hs
  | none =>
    split_ifs with h1 h2
    · intro _
      norm_num
    · intro _
      norm_num
    · intro hs
      rw [domainVerdictFromCounts_source] at hs
      rcases hs with hs | hs <;> cases hs

theorem analyzeLinks_noValidDomains_conf (links : List String)
    (cc : String → List CCRecord) :
    (analyzeLinks links cc).source = .noValidDomains →
    (analyzeLinks links cc).confidence ≤ 1/10 := by
  unfold analyzeLinks
  split_ifs
  · intro hs
    cases hs
  · intro _
    norm_num
  · intro _
    norm_num
  · intro hs
    cases hs
  · intro hs
    cases hs
  · intro hs
    cases hs

theorem analyzeProfile_valid (posts : List String) (avail : Bool)
    (o : ℕ → OllamaOutcome) :
    ((analyzeProfile posts avail o).classification = 0 ∨
     (analyzeProfile posts avail o).classification = 1 ∨
     (analyzeProfile posts avail o).classification = 2) ∧
    0 ≤ (analyzeProfile posts avail o).confidence ∧
    (analyzeProfile posts avail o).confidence ≤ 1 := by
  cases posts with
  | nil =>
    refine ⟨Or.inr (Or.inl rfl), ?_, ?_⟩
    · show (0:ℝ) ≤ 1/10
      norm_num
    · show (1:ℝ)/10 ≤ 1
      norm_num
  | cons a r =>
    rw [analyzeProfile_eq_of_ne (a :: r) avail o (by simp)]
    have hb := profileFinalConf_bounds (a :: r) avail o
    refine ⟨?_, ?_, ?_⟩
    · simp only
      split_ifs <;> simp
    · simp only
      linarith [hb.1]
    · simp only
      linarith [hb.2]

theorem analyzeLinks_valid (links : List String) (cc : String → List CCRecord) :
    ((analyzeLinks links cc).classification = 0 ∨
     (analyzeLinks links cc).classification = 1 ∨
     (analyzeLinks links cc).classification = 2) ∧
    0 ≤ (analyzeLinks links cc).confidence ∧
    (analyzeLinks links cc).confidence ≤ 1 := by
  unfold analyzeLinks
  split_ifs with h1 h2 h3 h4 h5
  · exact ⟨Or.inr (Or.inl rfl), by norm_num, by norm_num⟩
  · exact ⟨Or.inr (Or.inl rfl), by norm_num, by norm_num⟩
  · exact ⟨Or.inr (Or.inl rfl), by norm_num, by norm_num⟩
  · have hne : linkResults links cc ≠ [] := by
      intro hl
      rw [hl] at h3
      exact h3 rfl
    have hb := linkOverallConf_bounds links cc hne
    exact ⟨Or.inr (Or.inr rfl), hb.1, hb.2⟩
  · have hne : linkResults links cc ≠ [] := by
      intro hl
      rw [hl] at h3
      exact h3 rfl
    have hb := linkOverallConf_bounds links cc hne
    exact ⟨Or.inl rfl, hb.1, hb.2⟩
  · have hne : linkResults links cc ≠ [] := by
      intro hl
      rw [hl] at h3
      exact h3 rfl
    have hb := linkOverallConf_bounds links cc hne
    exact ⟨Or.inr (Or.inl rfl), hb.1, hb.2⟩

/-- C6: every Verdict produced by the engine operations — single-text
classification, profile aggregation, site resolution, link aggregation, and
reconciliation of valid verdicts — has a classification in {0,1,2} and a
confidence in [0,1]; and every no-data verdict (`insufficient_text`,
`no_posts`, `no_cc_data`, `no_content_extracted`, `no_valid_domains`) carries
confidence at most 0.1. -/
theorem c6_verdict_invariants :
    (∀ (text : String) (avail : Bool) (o : OllamaOutcome),
      ValidVerdict (analyzeText text avail o)) ∧
    (∀ (d : String) (recs : List CCRecord), ValidVerdict (analyzeDomainContent d recs)) ∧
    (∀ (posts : List String) (avail : Bool) (o : ℕ → OllamaOutcome),
      ((analyzeProfile posts avail o).classification = 0 ∨
       (analyzeProfile posts avail o).classification = 1 ∨
       (analyzeProfile posts avail o).classification = 2) ∧
      0 ≤ (analyzeProfile posts avail o).confidence ∧
      (analyzeProfile posts avail o).confidence ≤ 1) ∧
    (∀ (links : List String) (cc : String → List CCRecord),
      ((analyzeLinks links cc).classification = 0 ∨
       (analyzeLinks links cc).classification = 1 ∨
       (analyzeLinks links cc).classification = 2) ∧
      0 ≤ (analyzeLinks links cc).confidence ∧
      (analyzeLinks links cc).confidence ≤ 1) ∧
    (∀ p s : Verdict, ValidVerdict p → ValidVerdict s → ValidVerdict (reconcile p s)) ∧
    (∀ (text : String) (avail : Bool) (o : OllamaOutcome),
      (analyzeText text avail o).source = .insufficientText →
      (analyzeText text avail o).confidence ≤ 1/10) ∧
    (∀ (posts : List String) (avail : Bool) (o : ℕ → OllamaOutcome),
      (analyzeProfile posts avail o).source = .noPosts →
      (analyzeProfile posts avail o).confidence ≤ 1/10) ∧
    (∀ (d : String) (recs : List CCRecord),
      (analyzeDomainContent d recs).source = .noCcData ∨
        (analyzeDomainContent d recs).source = .noContentExtracted →
      (analyzeDomainContent d recs).confidence ≤ 1/10) ∧
    (∀ (links : List String) (cc : String → List CCRecord),
      (analyzeLinks links cc).source = .noValidDomains →
      (analyzeLinks links cc).confidence ≤ 1/10) :=
  ⟨analyzeText_valid, analyzeDomainContent_valid, analyzeProfile_valid,
   analyzeLinks_valid, reconcile_valid, analyzeText_insufficient_conf,
   analyzeProfile_noPosts_conf, analyzeDomainContent_nodata_conf,
   analyzeLinks_noValidDomains_conf⟩

/-- Witness for C6: reconciliation of two concrete valid verdicts stays valid,
and the concrete `insufficient_text` / `no_cc_data` verdicts carry confidence
at most 0.1. -/
theorem c6_verdict_invariants_witness :
    ValidVerdict (reconcile ⟨1, 3/10, .patternMatching, none⟩
      ⟨2, 17/20, .knownTransphobicDomain, none⟩) ∧
    (analyzeText "" false .failure).confidence ≤ 1/10 ∧
    (analyzeDomainContent "example.org" []).confidence ≤ 1/10 :=
  ⟨c6_verdict_invariants.2.2.2.2.1 _ _
      ⟨Or.inr (Or.inl rfl), by norm_num, by norm_num⟩
      ⟨Or.inr (Or.inr rfl), by norm_num, by norm_num⟩,
   c6_verdict_invariants.2.2.2.2.2.1 "" false .failure (by decide),
   c6_verdict_invariants.2.2.2.2.2.2.2.1 "example.org" [] (Or.inl (by decide))⟩
